import Mathlib

/-!
Shallow embedding of the inventory/order consistency core of the
StockAndPedidosAPI backend: the use cases `CreateOrder`, `UpdateOrder`
(status transitions), `UpdateOrderDetails` (line adjustment) and
`DeleteOrderDetails`, over Mongo-backed repositories.

Machine model:
  - documents are records with `Int` numeric fields (JS numbers on the
    integer inputs exercised here are exact);
  - each repository collection is an association list from `_id : Nat`
    to the document; `findById` returns the first binding,
    `findByIdAndUpdate` rewrites the (unique) binding in place and is a
    no-op on a missing id, `findByIdAndDelete` removes the binding;
  - a use case returns the post-state of the store together with an
    `Except` outcome: in JS the repository writes performed before a
    `throw` stay applied, so the store is returned even on error.
-/

/-- A product document (`ProductModel`): the fields the core reads. -/
structure Product where
  price : Int
  stock : Int
deriving DecidableEq, Repr

/-- An order document (`OrderModel`): the fields the core reads/writes. -/
structure OrderRec where
  userId : Nat
  total : Int
  status : Bool
deriving DecidableEq, Repr

/-- An order-line document (`OrderDetailsModel`). -/
structure OrderLine where
  orderId : Nat
  productId : Nat
  amount : Int
  unitPrice : Int
  subtotal : Int
deriving DecidableEq, Repr

/-- A collection: association list from `_id` to document. -/
abbrev Table (α : Type) := List (Nat × α)

/-- `Model.findById`: first binding with the given id, if any. -/
def findById {α : Type} (t : Table α) (id : Nat) : Option α :=
  match t with
  | [] => none
  | (k, v) :: rest => if k = id then some v else findById rest id

/-- `Model.findByIdAndUpdate`: rewrite the first binding with the given id
(`_id`s are unique in Mongo, so this is the one matching document);
no-op when the id is absent. -/
def updateById {α : Type} (t : Table α) (id : Nat) (f : α → α) : Table α :=
  match t with
  | [] => []
  | (k, v) :: rest => if k = id then (k, f v) :: rest else (k, v) :: updateById rest id f

/-- `Model.findByIdAndDelete`: remove the first binding with the given id. -/
def deleteById {α : Type} (t : Table α) (id : Nat) : Table α :=
  match t with
  | [] => []
  | (k, v) :: rest => if k = id then rest else (k, v) :: deleteById rest id

/-- The persistent store: one table per repository, plus a fresh-id counter
standing for Mongo's ObjectId generation. -/
structure DB where
  products : Table Product
  orders : Table OrderRec
  details : Table OrderLine
  nextId : Nat
deriving DecidableEq, Repr

/-- Table-level form of `ProductRepositoryMongo.updateStock`:
`findByIdAndUpdate(productId, { $inc: { stock: change } })`.
(Mongoose update validators do not run on `$inc` paths, so the schema's
`min: 0` on `stock` is not enforced here and stock may go negative.) -/
def updStockT (t : Table Product) (productId : Nat) (change : Int) : Table Product :=
  updateById t productId (fun p => { p with stock := p.stock + change })

/-- `ProductRepositoryMongo.updateStock` on the whole store. -/
def updateStock (db : DB) (productId : Nat) (change : Int) : DB :=
  { db with products := updStockT db.products productId change }

/-- `OrderDetailsRepositoryMongo.findAllByOrderId`:
`OrderDetailsModel.find({ orderId })`. -/
def findAllByOrderId (t : Table OrderLine) (orderId : Nat) : Table OrderLine :=
  t.filter (fun e => e.2.orderId == orderId)

/-- The error conditions the core can raise (each `throw new Error(...)`
site, plus the TypeError raised when a message template dereferences a
`null` product). -/
inductive CoreErr where
  | productNotFound (productId : Nat)
  | insufficientStock (available requested : Int)
  | invalidUserId
  | detailNotFound
  | nullProductDeref
deriving DecidableEq, Repr

/-- One element of `orderData.details` in `CreateOrder.execute`. -/
structure DetailInput where
  productId : Nat
  amount : Int
deriving DecidableEq, Repr

/-- The order header of `CreateOrder.execute`'s input: `userId := none`
models a missing/falsy `userId` (rejected by the `Order` entity). -/
structure CreateOrderInput where
  userId : Option Nat
  status : Bool
  details : List DetailInput
deriving DecidableEq, Repr

/-- The per-detail loop of `CreateOrder.execute` (lines 87-131): for each
detail, fetch the product (`ProductNotFound` if absent), check
`product.stock < detail.amount` (`InsufficientStock`), apply the stock
decrement `detail.amount * -1` immediately, then accumulate
`subtotal = product.price * detail.amount` into the running total and
push the verified line (orderId placeholder, JS `null`, here `0`). -/
def processDetails (db : DB) (details : List DetailInput) (orderTotal : Int)
    (verified : List OrderLine) : DB × Except CoreErr (Int × List OrderLine) :=
  match details with
  | [] => (db, .ok (orderTotal, verified))
  | d :: rest =>
    match findById db.products d.productId with
    | none => (db, .error (.productNotFound d.productId))
    | some product =>
      if product.stock < d.amount then
        (db, .error (.insufficientStock product.stock d.amount))
      else
        let stockChange := d.amount * -1
        let db1 := updateStock db d.productId stockChange
        let verifiedUnitPrice := product.price
        let verifiedSubtotal := verifiedUnitPrice * d.amount
        processDetails db1 rest (orderTotal + verifiedSubtotal)
          (verified ++ [{ orderId := 0, productId := d.productId, amount := d.amount,
                          unitPrice := verifiedUnitPrice, subtotal := verifiedSubtotal }])

/-- `insertMany`: assign consecutive fresh ids to a batch of lines. -/
def assignIds (n : Nat) (ls : List OrderLine) : Table OrderLine :=
  match ls with
  | [] => []
  | l :: rest => (n, l) :: assignIds (n + 1) rest

/-- `CreateOrder.execute`: run the per-detail loop; then `new Order(...)`
throws when `userId` is falsy (note: this runs AFTER the loop, so the
stock decrements are already applied); then persist the order
(`orderRepository.create`) and the verified lines with the new order's id
(`orderDetailsRepository.createMany`). -/
def createOrder (db : DB) (input : CreateOrderInput) :
    DB × Except CoreErr (Nat × OrderRec × Table OrderLine) :=
  match processDetails db input.details 0 [] with
  | (db1, .error e) => (db1, .error e)
  | (db1, .ok (orderTotal, verifiedDetails)) =>
    match input.userId with
    | none => (db1, .error .invalidUserId)
    | some uid =>
      let orderId := db1.nextId
      let newOrder : OrderRec := { userId := uid, total := orderTotal, status := input.status }
      let newOrders := db1.orders ++ [(orderId, newOrder)]
      let db2 : DB := { db1 with orders := newOrders, nextId := db1.nextId + 1 }
      let detailsToSave := verifiedDetails.map (fun l => { l with orderId := orderId })
      let savedDetails := assignIds db2.nextId detailsToSave
      let newDetails := db2.details ++ savedDetails
      let db3 : DB := { db2 with details := newDetails, nextId := db2.nextId + detailsToSave.length }
      (db3, .ok (orderId, newOrder, savedDetails))

/-- JS logical negation applied to an integer-valued number:
`!n` is `true` exactly when `n` is `0`. -/
def jsNotNum (n : Int) : Bool := n == 0

/-- JS numeric coercion of a boolean for a relational comparison:
`true → 1`, `false → 0`. -/
def jsBoolToNum (b : Bool) : Int := if b then 1 else 0

/-- Steps 4-7 of `UpdateOrderDetails.execute` (lines 183-234), reached once
the (buggy) stock check has not thrown: apply
`stockChange = (newAmount - oldAmount) * -1` to the product; recompute
`newSubtotal = newAmount * unitPrice`; update the detail document with the
patch `{ amonut: newAmount, subtotal: newSubtotal }` — `amonut` is not a
path of `OrderDetailsSchema`, so Mongoose strict mode silently drops it
and only `subtotal` is written; finally `$inc` the parent order's `total`
by `newSubtotal - oldSubtotal` and return the updated detail. -/
def applyLineUpdate (db : DB) (detailId : Nat) (oldDetail : OrderLine) (newAmount : Int) :
    DB × Except CoreErr OrderLine :=
  let price := oldDetail.unitPrice
  let quantityDifference := newAmount - oldDetail.amount
  let stockChange := quantityDifference * -1
  let db1 := updateStock db oldDetail.productId stockChange
  let newSubtotal := newAmount * price
  let subtotalDifference := newSubtotal - oldDetail.subtotal
  let patchedDetails := updateById db1.details detailId (fun l => { l with subtotal := newSubtotal })
  let db2 : DB := { db1 with details := patchedDetails }
  let patchedOrders := updateById db2.orders oldDetail.orderId (fun o => { o with total := o.total + subtotalDifference })
  let db3 : DB := { db2 with orders := patchedOrders }
  match findById db2.details detailId with
  | some updated => (db3, .ok updated)
  | none => (db3, .error .detailNotFound)

/-- `UpdateOrderDetails.execute`: load the detail (`detailNotFound` if
absent); compute `quantityDifference = newAmount - oldAmount`; then the
source's stock check is `if(!quantityDifference > 0)`, i.e.
`ToNumber(!quantityDifference) > 0`, which holds exactly when
`quantityDifference == 0` — embedded verbatim via `jsNotNum`/`jsBoolToNum`.
Inside that branch, a missing product makes the error-message template
dereference `null` (TypeError), and otherwise
`product.stock < quantityDifference` throws `InsufficientStock`. -/
def updateOrderDetails (db : DB) (detailId : Nat) (newAmount : Int) :
    DB × Except CoreErr OrderLine :=
  match findById db.details detailId with
  | none => (db, .error .detailNotFound)
  | some oldDetail =>
    let quantityDifference := newAmount - oldDetail.amount
    if jsBoolToNum (jsNotNum quantityDifference) > 0 then
      match findById db.products oldDetail.productId with
      | none => (db, .error .nullProductDeref)
      | some product =>
        if product.stock < quantityDifference then
          (db, .error (.insufficientStock product.stock quantityDifference))
        else
          applyLineUpdate db detailId oldDetail newAmount
    else
      applyLineUpdate db detailId oldDetail newAmount

/-- The update payload of `UpdateOrder.execute` (`req.body`): each field is
present (`some`) or absent (`none`, JS `undefined`). -/
structure OrderPatch where
  status : Option Bool
  total : Option Int
  userId : Option Nat
deriving DecidableEq, Repr

/-- `OrderRepositoryMongo.update` applied to one order document: present
patch fields overwrite, absent ones are untouched. -/
def applyOrderPatch (o : OrderRec) (p : OrderPatch) : OrderRec :=
  { userId := p.userId.getD o.userId,
    total := p.total.getD o.total,
    status := p.status.getD o.status }

/-- The per-line stock walk of `UpdateOrder.execute` (lines 164-168):
`updateStock(detail.productId, detail.amount * stockChange)` for each
detail in order. -/
def applyStockWalk (db : DB) (details : Table OrderLine) (stockChange : Int) : DB :=
  match details with
  | [] => db
  | (_, d) :: rest => applyStockWalk (updateStock db d.productId (d.amount * stockChange)) rest stockChange

/-- `UpdateOrder.execute`: load the order, returning `null` (here `none`,
with the store untouched) when absent; classify
`isCancellation = old.status === true && updateData.status === false` and
`isReactivation = old.status === false && updateData.status === true`;
on either, fetch the order's details and, when non-empty, walk them with
`stockChange = 1` (cancellation) or `-1` (reactivation); finally persist
the patch and return the updated order. -/
def updateOrder (db : DB) (orderId : Nat) (updateData : OrderPatch) : DB × Option OrderRec :=
  match findById db.orders orderId with
  | none => (db, none)
  | some oldOrder =>
    let isCancellation := oldOrder.status == true && updateData.status == some false
    let isReactivation := oldOrder.status == false && updateData.status == some true
    let db1 :=
      if isCancellation || isReactivation then
        let details := findAllByOrderId db.details orderId
        if details.length > 0 then
          let stockChange : Int := if isCancellation then 1 else -1
          applyStockWalk db details stockChange
        else db
      else db
    let patchedOrders := updateById db1.orders orderId (fun o => applyOrderPatch o updateData)
    let db2 : DB := { db1 with orders := patchedOrders }
    (db2, findById db2.orders orderId)

/-- The HTTP-visible outcome of the order-update endpoint. -/
inductive HttpResult where
  | ok (order : OrderRec)
  | notFound (message : String)
deriving DecidableEq, Repr

/-- `OrderController.updateOrder`: run the use case; a `null` result is
surfaced as `404 { message: "Pedido no encontrado" }`. -/
def updateOrderEndpoint (db : DB) (orderId : Nat) (updateData : OrderPatch) :
    DB × HttpResult :=
  match updateOrder db orderId updateData with
  | (db1, none) => (db1, .notFound "Pedido no encontrado")
  | (db1, some o) => (db1, .ok o)

/-- `DeleteOrderDetails.execute`: delegate to
`OrderDetailsModel.findByIdAndDelete` — remove the line, returning the
deleted document or `null`; nothing else is touched. -/
def deleteOrderDetails (db : DB) (id : Nat) : DB × Option OrderLine :=
  match findById db.details id with
  | none => (db, none)
  | some d => ({ db with details := deleteById db.details id }, some d)

/-- Sum of `subtotal` over the lines of one order (the spec's
`Σ line.subtotal` measure). -/
def sumSubtotals (t : Table OrderLine) (orderId : Nat) : Int :=
  match t with
  | [] => 0
  | (_, l) :: rest => (if l.orderId = orderId then l.subtotal else 0) + sumSubtotals rest orderId

/-- Sum of `amount` over the lines of one product in a stored table. -/
def amountSum (ds : Table OrderLine) (productId : Nat) : Int :=
  match ds with
  | [] => 0
  | (_, d) :: rest => (if d.productId = productId then d.amount else 0) + amountSum rest productId

/-- Sum of `amount` over the request details that target one product. -/
def amountSumInput (ds : List DetailInput) (productId : Nat) : Int :=
  match ds with
  | [] => 0
  | d :: rest => (if d.productId = productId then d.amount else 0) + amountSumInput rest productId

/-- The per-line invariant claimed by the spec, as a decidable check. -/
def lineInvariantHolds (l : OrderLine) : Bool := l.subtotal == l.amount * l.unitPrice

/-- Whether every stored line satisfies the per-line invariant. -/
def allLinesInvariant (t : Table OrderLine) : Bool :=
  t.all (fun e => lineInvariantHolds e.2)

/-- Whether an outcome is a success (`.ok`). -/
def execOk {α : Type} (r : Except CoreErr α) : Bool :=
  match r with
  | .ok _ => true
  | .error _ => false

/-! ### Association-table lemmas -/

theorem findById_updateById_self {α : Type} (t : Table α) (k : Nat) (f : α → α) :
    findById (updateById t k f) k = (findById t k).map f := by
  induction t with
  | nil => rfl
  | cons hd tl ih =>
    obtain ⟨k0, v⟩ := hd
    by_cases h : k0 = k
    · subst h; simp [findById, updateById]
    · simp [findById, updateById, h, ih]

theorem findById_updateById_of_ne {α : Type} (t : Table α) {k k' : Nat} (f : α → α)
    (h : k' ≠ k) : findById (updateById t k f) k' = findById t k' := by
  induction t with
  | nil => rfl
  | cons hd tl ih =>
    obtain ⟨k0, v⟩ := hd
    by_cases h0 : k0 = k
    · subst h0
      have h1 : k0 ≠ k' := fun hc => h (hc ▸ rfl)
      simp [findById, updateById, h1]
    · by_cases h1 : k0 = k'
      · subst h1; simp [findById, updateById, h0]
      · simp [findById, updateById, h0, h1, ih]

theorem updateById_eq_of_id {α : Type} (t : Table α) (k : Nat) (f : α → α)
    (hf : ∀ v, f v = v) : updateById t k f = t := by
  induction t with
  | nil => rfl
  | cons hd tl ih =>
    obtain ⟨k0, v⟩ := hd
    by_cases h : k0 = k
    · simp [updateById, h, hf]
    · simp [updateById, h, ih]

theorem updateById_eq_of_fix {α : Type} (t : Table α) {k : Nat} {v : α} (f : α → α)
    (hfind : findById t k = some v) (hf : f v = v) : updateById t k f = t := by
  induction t with
  | nil => rfl
  | cons hd tl ih =>
    obtain ⟨k0, w⟩ := hd
    by_cases h : k0 = k
    · subst h
      simp [findById] at hfind
      subst hfind
      simp [updateById, hf]
    · simp [findById, h] at hfind
      simp [updateById, h, ih hfind]

theorem updateById_updateById {α : Type} (t : Table α) (k : Nat) (f g : α → α) :
    updateById (updateById t k f) k g = updateById t k (fun v => g (f v)) := by
  induction t with
  | nil => rfl
  | cons hd tl ih =>
    obtain ⟨k0, v⟩ := hd
    by_cases h : k0 = k
    · simp [updateById, h]
    · simp [updateById, h, ih]

theorem updateById_comm_of_ne {α : Type} (t : Table α) {k k' : Nat} (f g : α → α)
    (h : k ≠ k') : updateById (updateById t k f) k' g = updateById (updateById t k' g) k f := by
  induction t with
  | nil => rfl
  | cons hd tl ih =>
    obtain ⟨k0, v⟩ := hd
    by_cases h0 : k0 = k
    · subst h0
      have h1 : ¬ k0 = k' := h
      simp [updateById, h1]
    · by_cases h1 : k0 = k'
      · subst h1; simp [updateById, h0]
      · simp [updateById, h0, h1, ih]

theorem findById_append_of_none {α : Type} (t : Table α) {k : Nat} (v : α)
    (h : findById t k = none) : findById (t ++ [(k, v)]) k = some v := by
  induction t with
  | nil => simp [findById]
  | cons hd tl ih =>
    obtain ⟨k0, w⟩ := hd
    by_cases h0 : k0 = k
    · simp [findById, h0] at h
    · simp [findById, h0] at h ⊢
      exact ih h

theorem findById_deleteById_of_ne {α : Type} (t : Table α) {k k' : Nat}
    (h : k' ≠ k) : findById (deleteById t k) k' = findById t k' := by
  induction t with
  | nil => rfl
  | cons hd tl ih =>
    obtain ⟨k0, v⟩ := hd
    by_cases h0 : k0 = k
    · subst h0
      have h1 : k0 ≠ k' := fun hc => h (hc ▸ rfl)
      simp [findById, deleteById, h1]
    · by_cases h1 : k0 = k'
      · subst h1; simp [findById, deleteById, h0]
      · simp [findById, deleteById, h0, h1, ih]

/-! ### Stock-table lemmas -/

theorem updStockT_zero (t : Table Product) (k : Nat) : updStockT t k 0 = t := by
  apply updateById_eq_of_id
  intro v
  simp

theorem findById_updStockT_self (t : Table Product) (k : Nat) (c : Int) :
    findById (updStockT t k c) k =
      (findById t k).map (fun p => { p with stock := p.stock + c }) :=
  findById_updateById_self t k _

theorem findById_updStockT_of_ne (t : Table Product) {k k' : Nat} (c : Int)
    (h : k' ≠ k) : findById (updStockT t k c) k' = findById t k' :=
  findById_updateById_of_ne t _ h

theorem updStockT_updStockT (t : Table Product) (k : Nat) (a b : Int) :
    updStockT (updStockT t k a) k b = updStockT t k (a + b) := by
  unfold updStockT
  rw [updateById_updateById]
  congr 1
  funext v
  simp [add_assoc]

theorem updStockT_swap (t : Table Product) (k k' : Nat) (a b : Int) :
    updStockT (updStockT t k a) k' b = updStockT (updStockT t k' b) k a := by
  by_cases h : k = k'
  · subst h
    rw [updStockT_updStockT, updStockT_updStockT, Int.add_comm]
  · exact updateById_comm_of_ne t _ _ h

/-! ### Stock-walk lemmas -/

/-- Table-level view of `applyStockWalk`. -/
def walkT (t : Table Product) (details : Table OrderLine) (stockChange : Int) : Table Product :=
  match details with
  | [] => t
  | (_, d) :: rest => walkT (updStockT t d.productId (d.amount * stockChange)) rest stockChange

theorem applyStockWalk_eq (db : DB) (ds : Table OrderLine) (c : Int) :
    applyStockWalk db ds c = { db with products := walkT db.products ds c } := by
  induction ds generalizing db with
  | nil => rfl
  | cons hd tl ih =>
    obtain ⟨k, d⟩ := hd
    simp [applyStockWalk, walkT, ih, updateStock]

theorem walkT_updStockT (t : Table Product) (ds : Table OrderLine) (q : Nat) (c s : Int) :
    walkT (updStockT t q c) ds s = updStockT (walkT t ds s) q c := by
  induction ds generalizing t with
  | nil => rfl
  | cons hd tl ih =>
    obtain ⟨k, d⟩ := hd
    simp only [walkT]
    rw [updStockT_swap, ih]

theorem walkT_cancel (ds : Table OrderLine) (t : Table Product) {a b : Int}
    (hab : a + b = 0) : walkT (walkT t ds a) ds b = t := by
  induction ds generalizing t with
  | nil => rfl
  | cons hd tl ih =>
    obtain ⟨k, d⟩ := hd
    have hz : d.amount * a + d.amount * b = 0 := by
      rw [← Int.mul_add, hab, Int.mul_zero]
    simp only [walkT]
    rw [← walkT_updStockT, updStockT_updStockT, hz, updStockT_zero]
    exact ih t

theorem walkT_findById (ds : Table OrderLine) (t : Table Product) (pid : Nat) (s : Int) :
    findById (walkT t ds s) pid =
      (findById t pid).map (fun p => { p with stock := p.stock + s * amountSum ds pid }) := by
  induction ds generalizing t with
  | nil =>
    simp only [walkT, amountSum, Int.mul_zero]
    cases findById t pid with
    | none => rfl
    | some p => simp
  | cons hd tl ih =>
    obtain ⟨k, d⟩ := hd
    simp only [walkT]
    rw [ih]
    by_cases hp : d.productId = pid
    · subst hp
      rw [findById_updStockT_self, Option.map_map]
      cases findById t d.productId with
      | none => rfl
      | some p =>
        simp [amountSum, Function.comp]
        ring
    · rw [findById_updStockT_of_ne _ _ (fun hc => hp hc.symm)]
      simp only [amountSum, if_neg hp, zero_add]

/-! ### Creation-loop lemmas -/

/-- Sum of `subtotal` over a plain list of lines. -/
def sumLines (ls : List OrderLine) : Int :=
  match ls with
  | [] => 0
  | l :: rest => l.subtotal + sumLines rest

theorem sumLines_append (xs ys : List OrderLine) :
    sumLines (xs ++ ys) = sumLines xs + sumLines ys := by
  induction xs with
  | nil => simp [sumLines]
  | cons hd tl ih => simp [sumLines, ih]; ring

theorem processDetails_frame (ds : List DetailInput) (db : DB) (tot : Int)
    (ver : List OrderLine) :
    (processDetails db ds tot ver).1.orders = db.orders ∧
    (processDetails db ds tot ver).1.details = db.details ∧
    (processDetails db ds tot ver).1.nextId = db.nextId := by
  induction ds generalizing db tot ver with
  | nil => exact ⟨rfl, rfl, rfl⟩
  | cons d rest ih =>
    cases h : findById db.products d.productId with
    | none => simp [processDetails, h]
    | some product =>
      by_cases hs : product.stock < d.amount
      · simp [processDetails, h, hs]
      · simpa [processDetails, h, hs, updateStock] using
          ih (updateStock db d.productId (d.amount * -1)) _ _

theorem processDetails_ok_total (ds : List DetailInput) (db : DB) (tot : Int)
    (ver : List OrderLine) {db' : DB} {tot' : Int} {ver' : List OrderLine}
    (h : processDetails db ds tot ver = (db', .ok (tot', ver'))) :
    tot' - sumLines ver' = tot - sumLines ver := by
  induction ds generalizing db tot ver with
  | nil =>
    simp [processDetails] at h
    obtain ⟨-, h2, h3⟩ := h
    rw [h2, h3]
  | cons d rest ih =>
    cases hf : findById db.products d.productId with
    | none => simp [processDetails, hf] at h
    | some product =>
      by_cases hs : product.stock < d.amount
      · simp [processDetails, hf, hs] at h
      · simp only [processDetails, hf, hs, if_false] at h
        have := ih _ _ _ h
        rw [this, sumLines_append]
        simp [sumLines]

theorem processDetails_ok_products (ds : List DetailInput) (db : DB) (tot : Int)
    (ver : List OrderLine) {db' : DB} {r : Int × List OrderLine}
    (h : processDetails db ds tot ver = (db', .ok r)) (pid : Nat) :
    findById db'.products pid =
      (findById db.products pid).map
        (fun p => { p with stock := p.stock - amountSumInput ds pid }) := by
  induction ds generalizing db tot ver with
  | nil =>
    simp [processDetails] at h
    rw [← h.1]
    simp only [amountSumInput, sub_zero]
    cases findById db.products pid with
    | none => rfl
    | some p => simp
  | cons d rest ih =>
    cases hf : findById db.products d.productId with
    | none => simp [processDetails, hf] at h
    | some product =>
      by_cases hs : product.stock < d.amount
      · simp [processDetails, hf, hs] at h
      · simp only [processDetails, hf, hs, if_false] at h
        rw [ih _ _ _ h]
        simp only [updateStock]
        by_cases hp : d.productId = pid
        · subst hp
          rw [findById_updStockT_self, Option.map_map]
          cases findById db.products d.productId with
          | none => rfl
          | some p =>
            simp [amountSumInput, Function.comp]
            ring
        · rw [findById_updStockT_of_ne _ _ (fun hc => hp hc.symm)]
          simp only [amountSumInput, if_neg hp, zero_add]

/-! ### Subtotal-sum lemmas -/

theorem updateById_eq_of_none {α : Type} (t : Table α) {k : Nat} (f : α → α)
    (h : findById t k = none) : updateById t k f = t := by
  induction t with
  | nil => rfl
  | cons hd tl ih =>
    obtain ⟨k0, v⟩ := hd
    by_cases h0 : k0 = k
    · simp [findById, h0] at h
    · simp [findById, h0] at h
      simp [updateById, h0, ih h]

theorem sumSubtotals_append (t s : Table OrderLine) (oid : Nat) :
    sumSubtotals (t ++ s) oid = sumSubtotals t oid + sumSubtotals s oid := by
  induction t with
  | nil => simp [sumSubtotals]
  | cons hd tl ih =>
    obtain ⟨k, l⟩ := hd
    simp [sumSubtotals, ih]
    ring

theorem sumSubtotals_assignIds (ls : List OrderLine) (n oid : Nat) :
    sumSubtotals (assignIds n (ls.map (fun l => { l with orderId := oid }))) oid
      = sumLines ls := by
  induction ls generalizing n with
  | nil => rfl
  | cons hd tl ih => simp [assignIds, sumSubtotals, sumLines, ih]

theorem sumSubtotals_updateById (t : Table OrderLine) {k : Nat} {l : OrderLine}
    (ns : Int) (oid : Nat) (hfind : findById t k = some l) :
    sumSubtotals (updateById t k (fun x => { x with subtotal := ns })) oid =
      sumSubtotals t oid + (if l.orderId = oid then ns - l.subtotal else 0) := by
  induction t with
  | nil => simp [findById] at hfind
  | cons hd tl ih =>
    obtain ⟨k0, v⟩ := hd
    by_cases h0 : k0 = k
    · subst h0
      simp [findById] at hfind
      subst hfind
      simp only [updateById, if_pos rfl, sumSubtotals]
      split_ifs <;> ring
    · simp [findById, h0] at hfind
      simp [updateById, sumSubtotals, h0, ih hfind]
      ring

theorem sumSubtotals_deleteById (t : Table OrderLine) {k : Nat} {l : OrderLine}
    (oid : Nat) (hfind : findById t k = some l) :
    sumSubtotals (deleteById t k) oid =
      sumSubtotals t oid - (if l.orderId = oid then l.subtotal else 0) := by
  induction t with
  | nil => simp [findById] at hfind
  | cons hd tl ih =>
    obtain ⟨k0, v⟩ := hd
    by_cases h0 : k0 = k
    · subst h0
      simp [findById] at hfind
      subst hfind
      simp only [deleteById, if_pos rfl, sumSubtotals]
      split_ifs <;> ring
    · simp [findById, h0] at hfind
      simp [deleteById, sumSubtotals, h0, ih hfind]
      ring

/-! ### Shapes of the line-adjustment and status-transition operations -/

theorem applyLineUpdate_eq (db : DB) (did : Nat) (old : OrderLine) (na : Int)
    (hfind : findById db.details did = some old) :
    applyLineUpdate db did old na =
      ({ products := updStockT db.products old.productId ((na - old.amount) * -1),
         orders := updateById db.orders old.orderId
           (fun o => { o with total := o.total + (na * old.unitPrice - old.subtotal) }),
         details := updateById db.details did
           (fun l => { l with subtotal := na * old.unitPrice }),
         nextId := db.nextId },
       .ok { old with subtotal := na * old.unitPrice }) := by
  simp only [applyLineUpdate, updateStock]
  rw [findById_updateById_self, hfind]
  simp

theorem updateOrderDetails_ok_eq (db : DB) (did : Nat) (na : Int) {db' : DB}
    {l' : OrderLine} (h : updateOrderDetails db did na = (db', .ok l')) :
    ∃ old, findById db.details did = some old ∧
      (db', Except.ok l') = applyLineUpdate db did old na := by
  cases hfind : findById db.details did with
  | none => simp [updateOrderDetails, hfind] at h
  | some old =>
    simp only [updateOrderDetails, hfind] at h
    refine ⟨old, rfl, ?_⟩
    by_cases hc : jsBoolToNum (jsNotNum (na - old.amount)) > 0
    · rw [if_pos hc] at h
      cases hq : findById db.products old.productId with
      | none => rw [hq] at h; simp at h
      | some product =>
        rw [hq] at h
        have h2 : (if product.stock < na - old.amount then
              (db, Except.error (CoreErr.insufficientStock product.stock (na - old.amount)))
            else applyLineUpdate db did old na) = (db', Except.ok l') := h
        by_cases hs : product.stock < na - old.amount
        · rw [if_pos hs] at h2; simp at h2
        · rw [if_neg hs] at h2; exact h2.symm
    · rw [if_neg hc] at h
      exact h.symm

theorem updateOrder_shape (db : DB) (oid : Nat) (patch : OrderPatch) :
    (updateOrder db oid patch).1.details = db.details ∧
    (updateOrder db oid patch).1.orders =
      updateById db.orders oid (fun o => applyOrderPatch o patch) ∧
    (updateOrder db oid patch).1.nextId = db.nextId := by
  cases hfind : findById db.orders oid with
  | none => simp [updateOrder, hfind, updateById_eq_of_none _ _ hfind]
  | some o =>
    simp only [updateOrder, hfind]
    split
    · split
      · rw [applyStockWalk_eq]
        exact ⟨rfl, rfl, rfl⟩
      · exact ⟨rfl, rfl, rfl⟩
    · exact ⟨rfl, rfl, rfl⟩

theorem updateOrder_cancel_products (db : DB) (oid : Nat) {o : OrderRec}
    (hfind : findById db.orders oid = some o) (hst : o.status = true) :
    (updateOrder db oid ⟨some false, none, none⟩).1.products =
      walkT db.products (findAllByOrderId db.details oid) 1 := by
  simp only [updateOrder, hfind, hst]
  by_cases hl : (findAllByOrderId db.details oid).length > 0
  · simp [hl, applyStockWalk_eq]
  · have hds : findAllByOrderId db.details oid = [] := by
      cases hds0 : findAllByOrderId db.details oid with
      | nil => rfl
      | cons a as => rw [hds0] at hl; simp at hl
    simp [hl, hds, walkT]

theorem updateOrder_react_products (db : DB) (oid : Nat) {o : OrderRec}
    (hfind : findById db.orders oid = some o) (hst : o.status = false) :
    (updateOrder db oid ⟨some true, none, none⟩).1.products =
      walkT db.products (findAllByOrderId db.details oid) (-1) := by
  simp only [updateOrder, hfind, hst]
  by_cases hl : (findAllByOrderId db.details oid).length > 0
  · simp [hl, applyStockWalk_eq]
  · have hds : findAllByOrderId db.details oid = [] := by
      cases hds0 : findAllByOrderId db.details oid with
      | nil => rfl
      | cons a as => rw [hds0] at hl; simp at hl
    simp [hl, hds, walkT]

/-! ### Concrete stores for the worked examples -/

/-- A store with one product (id 5: price 10, stock 50), one confirmed
order (id 10: total 20) and its single line (id 1: amount 2,
unitPrice 10, subtotal 20). -/
def exampleDb : DB :=
  { products := [(5, { price := 10, stock := 50 })],
    orders := [(10, { userId := 1, total := 20, status := true })],
    details := [(1, { orderId := 10, productId := 5, amount := 2, unitPrice := 10, subtotal := 20 })],
    nextId := 100 }

/-- `exampleDb` with the product's stock lowered to 1. -/
def lowStockDb : DB :=
  { exampleDb with products := [(5, { price := 10, stock := 1 })] }

/-- A store with one product (stock 5) and no orders or lines yet. -/
def freshDb : DB :=
  { products := [(5, { price := 10, stock := 5 })], orders := [], details := [], nextId := 100 }

/-! ### Claim theorems -/

/-- C1: the spec claims every persisted line satisfies
`subtotal == amount * unitPrice` after any successful mutating operation.
The code violates it on adjustment: adjusting the line with `amount = 2`,
`unitPrice = 10`, `subtotal = 20` to `newAmount = 3` succeeds but persists
`amount = 2` with `subtotal = 30`, because the update patch misspells the
field as `amonut`, which the schema silently drops. -/
theorem c1_adjustment_breaks_line_invariant :
    execOk (updateOrderDetails exampleDb 1 3).2 = true ∧
    allLinesInvariant exampleDb.details = true ∧
    allLinesInvariant (updateOrderDetails exampleDb 1 3).1.details = false ∧
    findById (updateOrderDetails exampleDb 1 3).1.details 1 =
      some { orderId := 10, productId := 5, amount := 2, unitPrice := 10, subtotal := 30 } :=
  ⟨rfl, rfl, rfl, rfl⟩

/-- C2: the spec claims a quantity increase is stock-checked (failing with
`InsufficientStock` when `product.stock < newAmount - oldAmount`) and that
only then is the product consulted. The code's check
`if(!quantityDifference > 0)` fires only when the difference is 0, so the
increase 2 → 5 against stock 1 succeeds and drives the stock to -2. -/
theorem c2_increase_skips_stock_check :
    findById lowStockDb.products 5 = some { price := 10, stock := 1 } ∧
    execOk (updateOrderDetails lowStockDb 1 5).2 = true ∧
    findById (updateOrderDetails lowStockDb 1 5).1.products 5 =
      some { price := 10, stock := -2 } :=
  ⟨rfl, rfl, rfl⟩

/-- C3 (counterexample): deleting the only line (subtotal 20) of order 10
succeeds but leaves the order's `total` at 20 while the sum of its
remaining lines' subtotals is 0, refuting `total = Σ subtotal` after a
successful line deletion. -/
theorem c3_delete_breaks_total_invariant :
    (deleteOrderDetails exampleDb 1).2 =
      some { orderId := 10, productId := 5, amount := 2, unitPrice := 10, subtotal := 20 } ∧
    findById (deleteOrderDetails exampleDb 1).1.orders 10 =
      some { userId := 1, total := 20, status := true } ∧
    sumSubtotals (deleteOrderDetails exampleDb 1).1.details 10 = 0 ∧
    ¬ ((20 : Int) = 0) :=
  ⟨rfl, rfl, rfl, by decide⟩

/-- C8: invoking the order-update endpoint with an id for which no order
exists returns the distinguishable 404 `"Pedido no encontrado"` outcome
and leaves the store (stock and orders) untouched. -/
theorem c8_missing_order_not_found (db : DB) (oid : Nat) (patch : OrderPatch)
    (h : findById db.orders oid = none) :
    updateOrderEndpoint db oid patch = (db, .notFound "Pedido no encontrado") := by
  simp [updateOrderEndpoint, updateOrder, h]

/-- Witness for C8 at a concrete store and missing id 99. -/
theorem c8_missing_order_not_found_witness :
    updateOrderEndpoint exampleDb 99 ⟨some false, none, none⟩ =
      (exampleDb, .notFound "Pedido no encontrado") :=
  c8_missing_order_not_found exampleDb 99 ⟨some false, none, none⟩ rfl

/-- C10: deleting an existing order line removes exactly that line: the
deleted document is returned, the product and order tables (hence every
stock and the parent order's total) are unchanged, and every other line is
still found unchanged. -/
theorem c10_delete_line_frame (db : DB) (did : Nat) (l : OrderLine)
    (h : findById db.details did = some l) :
    (deleteOrderDetails db did).2 = some l ∧
    (deleteOrderDetails db did).1.products = db.products ∧
    (deleteOrderDetails db did).1.orders = db.orders ∧
    (deleteOrderDetails db did).1.details = deleteById db.details did ∧
    ∀ k, k ≠ did → findById (deleteOrderDetails db did).1.details k = findById db.details k := by
  refine ⟨?_, ?_, ?_, ?_, ?_⟩
  · simp [deleteOrderDetails, h]
  · simp [deleteOrderDetails, h]
  · simp [deleteOrderDetails, h]
  · simp [deleteOrderDetails, h]
  · intro k hk
    simp only [deleteOrderDetails, h]
    exact findById_deleteById_of_ne _ hk

/-- Witness for C10: deleting line 1 of the concrete store. -/
theorem c10_delete_line_frame_witness :
    (deleteOrderDetails exampleDb 1).2 =
      some { orderId := 10, productId := 5, amount := 2, unitPrice := 10, subtotal := 20 } ∧
    (deleteOrderDetails exampleDb 1).1.products = exampleDb.products ∧
    (deleteOrderDetails exampleDb 1).1.orders = exampleDb.orders ∧
    (deleteOrderDetails exampleDb 1).1.details = deleteById exampleDb.details 1 ∧
    findById (deleteOrderDetails exampleDb 1).1.details 2 = findById exampleDb.details 2 := by
  obtain ⟨h1, h2, h3, h4, h5⟩ :=
    c10_delete_line_frame exampleDb 1
      { orderId := 10, productId := 5, amount := 2, unitPrice := 10, subtotal := 20 } rfl
  exact ⟨h1, h2, h3, h4, h5 2 (by decide)⟩

/-- C7: adjusting a line to its current amount (`newAmount == oldAmount`)
succeeds (given the product exists with non-negative stock, which the
zero-difference branch of the buggy check consults) and is the identity on
the store: `stockDelta` and `subtotalDelta` are 0, so the product's stock,
the line, and the parent order's total are all observably unchanged. -/
theorem c7_same_amount_adjustment_identity (db : DB) (did : Nat) (l : OrderLine)
    (p : Product) (hl : findById db.details did = some l)
    (hp : findById db.products l.productId = some p) (hstock : 0 ≤ p.stock)
    (hinv : l.subtotal = l.amount * l.unitPrice) :
    updateOrderDetails db did l.amount = (db, .ok l) := by
  have hcond : jsBoolToNum (jsNotNum (l.amount - l.amount)) > 0 := by
    simp [jsNotNum, jsBoolToNum]
  simp only [updateOrderDetails, hl]
  rw [if_pos hcond]
  split
  · rename_i heq
    rw [hp] at heq
    exact absurd heq (by simp)
  · rename_i product heq
    rw [hp] at heq
    obtain rfl : p = product := by injection heq
    rw [if_neg (by rw [sub_self]; exact not_lt.mpr hstock)]
    rw [applyLineUpdate_eq db did l l.amount hl, ← hinv]
    have h1 : (l.amount - l.amount) * -1 = (0 : Int) := by rw [sub_self, zero_mul]
    have h2 : l.subtotal - l.subtotal = (0 : Int) := sub_self _
    rw [h1, h2, updStockT_zero]
    rw [updateById_eq_of_id db.orders l.orderId _ (fun o => by simp)]
    rw [updateById_eq_of_fix db.details _ hl rfl]

/-- Witness for C7: adjusting line 1 (amount 2) of the concrete store to
amount 2 returns the store and the line unchanged. -/
theorem c7_same_amount_adjustment_identity_witness :
    updateOrderDetails exampleDb 1 2 =
      (exampleDb,
       .ok { orderId := 10, productId := 5, amount := 2, unitPrice := 10, subtotal := 20 }) :=
  c7_same_amount_adjustment_identity exampleDb 1
    { orderId := 10, productId := 5, amount := 2, unitPrice := 10, subtotal := 20 }
    { price := 10, stock := 50 } rfl rfl (by decide) (by decide)

/-- C4: in `CreateOrder` the stock decrement for a validated line is
applied to the store immediately, before the next line is processed: with
two lines for the same product, where the first fits the stock but the
two together over-subscribe it, the second line is validated against the
already-decremented stock `p.stock - a1` and the request fails there with
`InsufficientStock`, the store holding exactly the first line's decrement. -/
theorem c4_second_line_sees_decrement (db : DB) (u : Option Nat) (st : Bool)
    (pid : Nat) (a1 a2 : Int) (p : Product)
    (hp : findById db.products pid = some p)
    (h1 : a1 ≤ p.stock) (h2 : p.stock - a1 < a2) :
    createOrder db { userId := u, status := st, details := [⟨pid, a1⟩, ⟨pid, a2⟩] } =
      (updateStock db pid (a1 * -1), .error (.insufficientStock (p.stock - a1) a2)) := by
  have hp2 : findById (updateStock db pid (a1 * -1)).products pid =
      some { p with stock := p.stock + a1 * -1 } := by
    simp only [updateStock]
    rw [findById_updStockT_self, hp]
    rfl
  have hstk : p.stock + a1 * -1 = p.stock - a1 := by ring
  simp only [createOrder, processDetails, hp, hp2]
  rw [if_neg (not_lt.mpr h1)]
  simp only [hstk]
  rw [if_pos h2]

/-- Witness for C4: stock 5 with two lines of 3 each fails on the second
line with 2 available, the first decrement already applied. -/
theorem c4_second_line_sees_decrement_witness :
    createOrder freshDb { userId := some 1, status := true, details := [⟨5, 3⟩, ⟨5, 3⟩] } =
      (updateStock freshDb 5 (3 * -1),
       .error (.insufficientStock ((5 : Int) - 3) 3)) :=
  c4_second_line_sees_decrement freshDb (some 1) true 5 3 3 { price := 10, stock := 5 }
    rfl (by decide) (by decide)

/-- C9: when every line of the request passes validation (the per-detail
loop succeeds) but the header has no `userId`, the `Order` entity
constructor throws only after the loop: the call fails with the
invalid-user-id error, no order or line record is persisted, yet every
product's stock remains decremented by the summed amounts of the lines
that target it. -/
theorem c9_missing_user_after_decrements (db : DB) (st : Bool) (ds : List DetailInput)
    {db1 : DB} {tot : Int} {ver : List OrderLine}
    (h : processDetails db ds 0 [] = (db1, .ok (tot, ver))) :
    createOrder db { userId := none, status := st, details := ds } =
      (db1, .error .invalidUserId) ∧
    db1.orders = db.orders ∧ db1.details = db.details ∧
    ∀ pid, findById db1.products pid =
      (findById db.products pid).map
        (fun p => { p with stock := p.stock - amountSumInput ds pid }) := by
  have hframe := processDetails_frame ds db 0 []
  rw [h] at hframe
  refine ⟨?_, hframe.1, hframe.2.1, ?_⟩
  · simp [createOrder, h]
  · intro pid
    exact processDetails_ok_products ds db 0 [] h pid

/-- Witness for C9: one valid line of 3 against stock 5 and no user id:
error, nothing persisted, stock decremented to 2. -/
theorem c9_missing_user_after_decrements_witness :
    createOrder freshDb { userId := none, status := true, details := [⟨5, 3⟩] } =
      ({ products := [(5, { price := 10, stock := 2 })], orders := [], details := [],
         nextId := 100 }, .error .invalidUserId) ∧
    ({ products := [(5, { price := 10, stock := 2 })], orders := [], details := [],
       nextId := 100 } : DB).orders = freshDb.orders ∧
    ({ products := [(5, { price := 10, stock := 2 })], orders := [], details := [],
       nextId := 100 } : DB).details = freshDb.details ∧
    findById [(5, { price := 10, stock := 2 })] 5 =
      (findById freshDb.products 5).map
        (fun p => { p with stock := p.stock - amountSumInput [⟨5, 3⟩] 5 }) := by
  obtain ⟨h1, h2, h3, h4⟩ := c9_missing_user_after_decrements freshDb true [⟨5, 3⟩] rfl
  exact ⟨h1, h2, h3, h4 5⟩

/-- C5 (counterexample): with stock 5 and two lines of 3 for the same
product, creation fails with `InsufficientStock` but the product's stock
is NOT left unchanged: the first line's decrement (5 → 2) survives,
refuting the claim that the over-subscribed product's stock is untouched. -/
theorem c5_failed_creation_stock_changed :
    (createOrder freshDb { userId := some 1, status := true, details := [⟨5, 3⟩, ⟨5, 3⟩] }).2 =
      .error (.insufficientStock 2 3) ∧
    findById freshDb.products 5 = some { price := 10, stock := 5 } ∧
    findById (createOrder freshDb
        { userId := some 1, status := true, details := [⟨5, 3⟩, ⟨5, 3⟩] }).1.products 5 =
      some { price := 10, stock := 2 } ∧
    ¬ ((2 : Int) = 5) :=
  ⟨rfl, rfl, rfl, by decide⟩

/-- C5 (amended): a failed creation persists no order and no line records
(the orders and details tables are exactly the pre-call ones); and when
the over-subscribing line is reached, the request fails with
`InsufficientStock` carrying the stock available at that point — in
particular, if the over-subscribing line is the first to touch its
product, the whole store is unchanged. Stock decrements already applied
for earlier lines are not rolled back (see the counterexample). -/
theorem c5_failed_creation_amended :
    (∀ (db : DB) (input : CreateOrderInput) (db' : DB) (e : CoreErr),
        createOrder db input = (db', .error e) →
        db'.orders = db.orders ∧ db'.details = db.details) ∧
    (∀ (db : DB) (u : Option Nat) (st : Bool) (pid : Nat) (amt : Int)
       (rest : List DetailInput) (p : Product),
        findById db.products pid = some p → p.stock < amt →
        createOrder db { userId := u, status := st, details := ⟨pid, amt⟩ :: rest } =
          (db, .error (.insufficientStock p.stock amt))) := by
  constructor
  · intro db input db' e h
    have hframe := processDetails_frame input.details db 0 []
    rcases hp : processDetails db input.details 0 [] with ⟨db1, r⟩
    rw [hp] at hframe
    cases r with
    | error e0 =>
      simp only [createOrder, hp] at h
      obtain ⟨rfl, -⟩ := Prod.mk.injEq .. ▸ h
      exact ⟨hframe.1.symm ▸ rfl, hframe.2.1.symm ▸ rfl⟩
    | ok pair =>
      obtain ⟨tot, ver⟩ := pair
      cases hu : input.userId with
      | none =>
        simp only [createOrder, hp, hu] at h
        obtain ⟨rfl, -⟩ := Prod.mk.injEq .. ▸ h
        exact ⟨hframe.1.symm ▸ rfl, hframe.2.1.symm ▸ rfl⟩
      | some uid =>
        simp only [createOrder, hp, hu] at h
        exact absurd (congrArg Prod.snd h) (by simp)
  · intro db u st pid amt rest p hp hlt
    simp only [createOrder, processDetails, hp]
    rw [if_pos hlt]

/-- Witness for C5 (amended): the failing two-line request persists
nothing, and a first-line failure leaves the store entirely unchanged. -/
theorem c5_failed_creation_amended_witness :
    ((createOrder freshDb { userId := some 1, status := true, details := [⟨5, 3⟩, ⟨5, 3⟩] }).1.orders
        = freshDb.orders ∧
     (createOrder freshDb { userId := some 1, status := true, details := [⟨5, 3⟩, ⟨5, 3⟩] }).1.details
        = freshDb.details) ∧
    createOrder freshDb { userId := some 1, status := true, details := [⟨5, 7⟩] } =
      (freshDb, .error (.insufficientStock 5 7)) := by
  constructor
  · exact c5_failed_creation_amended.1 freshDb
      { userId := some 1, status := true, details := [⟨5, 3⟩, ⟨5, 3⟩] }
      (createOrder freshDb { userId := some 1, status := true, details := [⟨5, 3⟩, ⟨5, 3⟩] }).1
      (.insufficientStock 2 3) rfl
  · exact c5_failed_creation_amended.2 freshDb (some 1) true 5 7 []
      { price := 10, stock := 5 } rfl (by decide)

/-- C6: for a confirmed order, cancelling (status `true → false`) walks
every line and adds its `amount` to the line's product stock — each stored
product gains the summed amounts of the order's lines that target it —
and reactivating afterwards (status `false → true`) subtracts the same
amounts again: the cancel-then-reactivate round trip is the identity on
the whole product table. -/
theorem c6_cancel_reactivate_roundtrip (db : DB) (oid : Nat) (o : OrderRec)
    (hfind : findById db.orders oid = some o) (hst : o.status = true) :
    (∀ pid p, findById db.products pid = some p →
       findById (updateOrder db oid ⟨some false, none, none⟩).1.products pid =
         some { p with stock := p.stock + amountSum (findAllByOrderId db.details oid) pid }) ∧
    (updateOrder (updateOrder db oid ⟨some false, none, none⟩).1 oid
        ⟨some true, none, none⟩).1.products = db.products := by
  have hcancel := updateOrder_cancel_products db oid hfind hst
  obtain ⟨hdet1, hord1, -⟩ := updateOrder_shape db oid ⟨some false, none, none⟩
  constructor
  · intro pid p hp
    rw [hcancel, walkT_findById, hp]
    simp
  · have hfind1 : findById (updateOrder db oid ⟨some false, none, none⟩).1.orders oid =
        some (applyOrderPatch o ⟨some false, none, none⟩) := by
      rw [hord1, findById_updateById_self, hfind]
      rfl
    have hreact := updateOrder_react_products
      (updateOrder db oid ⟨some false, none, none⟩).1 oid hfind1 rfl
    rw [hreact, hdet1, hcancel]
    exact walkT_cancel _ _ (by norm_num)

/-- Witness for C6 on the concrete store: cancelling order 10 (one line,
amount 2, product 5) raises the stock by the order's summed amount, and
reactivating restores the original product table. -/
theorem c6_cancel_reactivate_roundtrip_witness :
    findById (updateOrder exampleDb 10 ⟨some false, none, none⟩).1.products 5 =
      some { price := 10,
             stock := 50 + amountSum (findAllByOrderId exampleDb.details 10) 5 } ∧
    (updateOrder (updateOrder exampleDb 10 ⟨some false, none, none⟩).1 10
        ⟨some true, none, none⟩).1.products = exampleDb.products := by
  obtain ⟨h1, h2⟩ := c6_cancel_reactivate_roundtrip exampleDb 10
    { userId := 1, total := 20, status := true } rfl rfl
  exact ⟨h1 5 { price := 10, stock := 50 } rfl, h2⟩

/-- C3 (amended): `order.total = Σ subtotal` over the order's current
lines holds after a successful order creation (for the created order, in
a store whose fresh id is unused), and is preserved by a successful line
adjustment and by any order update whose patch does not set `total`
(in particular every status transition). It does NOT survive line
deletion: deleting a line leaves every order untouched while removing the
line's subtotal from the sum, so the invariant breaks exactly by the
deleted line's subtotal. -/
theorem c3_total_invariant_amended :
    (∀ (db : DB) (input : CreateOrderInput) (db' : DB) (oid : Nat) (ord : OrderRec)
       (lines : Table OrderLine),
        createOrder db input = (db', .ok (oid, ord, lines)) →
        findById db.orders db.nextId = none →
        sumSubtotals db.details db.nextId = 0 →
        ∃ o, findById db'.orders oid = some o ∧ o.total = sumSubtotals db'.details oid) ∧
    (∀ (db : DB) (did : Nat) (na : Int) (db' : DB) (l' : OrderLine) (oid : Nat),
        updateOrderDetails db did na = (db', .ok l') →
        (∀ o, findById db.orders oid = some o → o.total = sumSubtotals db.details oid) →
        ∀ o, findById db'.orders oid = some o → o.total = sumSubtotals db'.details oid) ∧
    (∀ (db : DB) (orderId : Nat) (patch : OrderPatch) (oid : Nat),
        patch.total = none →
        (∀ o, findById db.orders oid = some o → o.total = sumSubtotals db.details oid) →
        ∀ o, findById (updateOrder db orderId patch).1.orders oid = some o →
          o.total = sumSubtotals (updateOrder db orderId patch).1.details oid) ∧
    (∀ (db : DB) (did : Nat) (l : OrderLine),
        findById db.details did = some l →
        (deleteOrderDetails db did).1.orders = db.orders ∧
        sumSubtotals (deleteOrderDetails db did).1.details l.orderId =
          sumSubtotals db.details l.orderId - l.subtotal) := by
  refine ⟨?_, ?_, ?_, ?_⟩
  · intro db input db' oid ord lines hco hfresh hsum
    rcases hp : processDetails db input.details 0 [] with ⟨db1, r⟩
    have hframe := processDetails_frame input.details db 0 []
    rw [hp] at hframe
    obtain ⟨hor, hde, hni⟩ := hframe
    cases r with
    | error e =>
      simp only [createOrder, hp] at hco
      exact absurd (congrArg Prod.snd hco) (by simp)
    | ok pair =>
      obtain ⟨tot, ver⟩ := pair
      have htot := processDetails_ok_total input.details db 0 [] hp
      simp only [sumLines, sub_zero] at htot
      have htot' : tot = sumLines ver := sub_eq_zero.mp htot
      cases hu : input.userId with
      | none =>
        simp only [createOrder, hp, hu] at hco
        exact absurd (congrArg Prod.snd hco) (by simp)
      | some uid =>
        simp only [createOrder, hp, hu] at hco
        simp only [Prod.mk.injEq, Except.ok.injEq] at hco
        obtain ⟨hdb, hoid, hord, hlines⟩ := hco
        subst hdb
        subst hoid
        refine ⟨{ userId := uid, total := tot, status := input.status }, ?_, ?_⟩
        · dsimp only
          rw [hor, hni]
          exact findById_append_of_none db.orders _ hfresh
        · dsimp only
          rw [hde, hni, sumSubtotals_append, hsum, sumSubtotals_assignIds, zero_add]
          exact htot'
  · intro db did na db' l' oid hok hinv o' hfind'
    obtain ⟨old, holdfind, heq⟩ := updateOrderDetails_ok_eq db did na hok
    rw [applyLineUpdate_eq db did old na holdfind] at heq
    obtain ⟨hdb, -⟩ := Prod.mk.injEq .. ▸ heq
    subst hdb
    dsimp only at hfind' ⊢
    rw [sumSubtotals_updateById _ (na * old.unitPrice) oid holdfind]
    by_cases hoid : old.orderId = oid
    · rw [hoid] at hfind'
      rw [findById_updateById_self] at hfind'
      cases hf : findById db.orders oid with
      | none => rw [hf] at hfind'; simp at hfind'
      | some o0 =>
        rw [hf] at hfind'
        simp only [Option.map_some'] at hfind'
        obtain rfl := Option.some.inj hfind'
        rw [if_pos hoid]
        dsimp only
        rw [hinv o0 hf]
    · rw [findById_updateById_of_ne _ _ (fun hc => hoid hc.symm)] at hfind'
      rw [if_neg hoid, add_zero]
      exact hinv o' hfind'
  · intro db orderId patch oid hpt hinv o' hfind'
    obtain ⟨hdet, hord, -⟩ := updateOrder_shape db orderId patch
    rw [hdet]
    rw [hord] at hfind'
    by_cases hoid : orderId = oid
    · subst hoid
      rw [findById_updateById_self] at hfind'
      cases hf : findById db.orders orderId with
      | none => rw [hf] at hfind'; simp at hfind'
      | some o0 =>
        rw [hf] at hfind'
        simp only [Option.map_some'] at hfind'
        obtain rfl := Option.some.inj hfind'
        have hto : (applyOrderPatch o0 patch).total = o0.total := by
          simp [applyOrderPatch, hpt]
        rw [hto]
        exact hinv o0 hf
    · rw [findById_updateById_of_ne _ _ (fun hc => hoid hc.symm)] at hfind'
      exact hinv o' hfind'
  · intro db did l hfind
    constructor
    · simp [deleteOrderDetails, hfind]
    · simp only [deleteOrderDetails, hfind]
      rw [sumSubtotals_deleteById _ l.orderId hfind]
      simp

/-- The store produced by creating a single-line order (3 × product 5 at
price 10) on `freshDb`. -/
def createdDb : DB :=
  { products := [(5, { price := 10, stock := 2 })],
    orders := [(100, { userId := 1, total := 30, status := true })],
    details := [(101, { orderId := 100, productId := 5, amount := 3,
                        unitPrice := 10, subtotal := 30 })],
    nextId := 102 }

/-- Witness for C3 (amended), one concrete instance per conjunct:
creating a single-line order yields total 30 = Σ; adjusting line 1 to
amount 3 keeps total 30 = Σ; cancelling order 10 keeps total 20 = Σ;
deleting line 1 leaves orders unchanged while the Σ drops by 20. -/
theorem c3_total_invariant_amended_witness :
    (findById createdDb.orders 100 = some { userId := 1, total := 30, status := true } ∧
      (30 : Int) = sumSubtotals createdDb.details 100) ∧
    (30 : Int) = sumSubtotals (updateOrderDetails exampleDb 1 3).1.details 10 ∧
    (20 : Int) = sumSubtotals (updateOrder exampleDb 10 ⟨some false, none, none⟩).1.details 10 ∧
    ((deleteOrderDetails exampleDb 1).1.orders = exampleDb.orders ∧
      sumSubtotals (deleteOrderDetails exampleDb 1).1.details 10 =
        sumSubtotals exampleDb.details 10 - 20) := by
  have hinv : ∀ o, findById exampleDb.orders 10 = some o →
      o.total = sumSubtotals exampleDb.details 10 := by
    intro o ho
    have h2 : some ({ userId := 1, total := 20, status := true } : OrderRec) = some o := ho
    obtain rfl := Option.some.inj h2
    rfl
  refine ⟨?_, ?_, ?_, ?_⟩
  · obtain ⟨o, h1, h2⟩ := c3_total_invariant_amended.1 freshDb
      { userId := some 1, status := true, details := [⟨5, 3⟩] } createdDb
      100 { userId := 1, total := 30, status := true }
      [(101, { orderId := 100, productId := 5, amount := 3, unitPrice := 10, subtotal := 30 })]
      rfl rfl rfl
    have h3 : some ({ userId := 1, total := 30, status := true } : OrderRec) = some o := h1
    obtain rfl := Option.some.inj h3
    exact ⟨h1, h2⟩
  · exact c3_total_invariant_amended.2.1 exampleDb 1 3 (updateOrderDetails exampleDb 1 3).1
      { orderId := 10, productId := 5, amount := 2, unitPrice := 10, subtotal := 30 } 10
      rfl hinv { userId := 1, total := 30, status := true } rfl
  · exact c3_total_invariant_amended.2.2.1 exampleDb 10 ⟨some false, none, none⟩ 10
      rfl hinv { userId := 1, total := 20, status := false } rfl
  · exact c3_total_invariant_amended.2.2.2 exampleDb 1
      { orderId := 10, productId := 5, amount := 2, unitPrice := 10, subtotal := 20 } rfl
